import Mathlib

set_option maxRecDepth 4000

/-!
Shallow embedding of `src/app.py` (tolerancia-sustancia): a two-state ODE
simulator for substance concentration `C` and tolerance `T`.

Real numbers manipulated by the program are modelled by exact rationals `ℚ`.
Every definition is translated from the Python source, except the numerical
integrator `odeint`, which is an external library routine (scipy) and is
modelled from the spec's contract for it.
-/

namespace App

/-- The four substances of the preset table (line 16 of the source). -/
inductive Sustancia
  | simulacionGeneral
  | alcohol
  | nicotina
  | marihuana
deriving DecidableEq

/-- The three physiological rate constants of one substance. -/
structure Params where
  ke : ℚ
  alpha : ℚ
  beta : ℚ
deriving DecidableEq

/-- Preset parameter table `parametros` (lines 19-24 of the source). -/
def parametros : Sustancia → Params
  | Sustancia.simulacionGeneral => ⟨1/2, 3/10, 1/10⟩
  | Sustancia.alcohol => ⟨3/10, 1/5, 1/20⟩
  | Sustancia.nicotina => ⟨7/10, 2/5, 3/20⟩
  | Sustancia.marihuana => ⟨2/5, 1/4, 1/10⟩

/-- The four consumption types of the sidebar radio (line 61 of the source). -/
inductive Tipo
  | dosisUnica
  | continuo
  | lineal
  | periodico
deriving DecidableEq

/-- numpy.linspace over `ℚ`: `n` evenly spaced points from `a` to `b`,
endpoint included (line 39 of the source uses `np.linspace(0, t_max, 500)`). -/
def linspace (a b : ℚ) (n : ℕ) : List ℚ :=
  (List.range n).map (fun i : ℕ => a + (b - a) * (i : ℚ) / ((n : ℚ) - 1))

/-- The time grid `t = np.linspace(0, t_max, 500)` (line 39 of the source). -/
def tGrid (tmax : ℚ) : List ℚ := linspace 0 tmax 500

/-- numpy.isclose over `ℚ`: `|a - b| ≤ atol + rtol * |b|` (numpy's documented
formula; the source calls it with `atol=0.1` and the default `rtol=1e-5`). -/
def npIsclose (a b atol rtol : ℚ) : Bool :=
  decide (|a - b| ≤ atol + rtol * |b|)

/-- `def u_singular(t): return 0` (line 42 of the source). -/
def u_singular (t : ℚ) : ℚ := 0

/-- `def u_constante(t, R0=1.0): return R0` (line 43 of the source). -/
def u_constante (t R0 : ℚ) : ℚ := R0

/-- `def u_lineal(t, a=0.2): return a * t` (line 44 of the source). -/
def u_lineal (t a : ℚ) : ℚ := a * t

/-- `def u_periodica(t, D=5, T=5): return D * sum(np.isclose(t, n * T,
atol=0.1) for n in range(int(t // T) + 1))` (line 45 of the source).
Python's `sum` of booleans counts the `True`s, and `int(t // T)` is
`⌊t / T⌋` truncated to an integer. -/
def u_periodica (t D T : ℚ) : ℚ :=
  D * (((List.range (⌊t / T⌋ + 1).toNat).countP
    (fun n : ℕ => npIsclose t ((n : ℚ) * T) (1/10) (1/100000)) : ℕ) : ℚ)

/-- The ODE right-hand side `modelo(y, t, ke, alpha, beta, u_func)`
(lines 48-53 of the source). -/
def modelo (y : ℚ × ℚ) (t ke alpha beta : ℚ) (u_func : ℚ → ℚ) : ℚ × ℚ :=
  let C := y.1
  let T := y.2
  let u_t := u_func t
  let dCdt := -ke * C + u_t
  let dTdt := alpha * u_t - beta * T
  (dCdt, dTdt)

/-- `y0_singular = [10, 2]` (line 56 of the source). -/
def y0_singular : ℚ × ℚ := (10, 2)

/-- `y0_general = [0, 0]` (line 57 of the source). -/
def y0_general : ℚ × ℚ := (0, 0)

/-- The initial state chosen by the `if/elif/else` chain on the consumption
type (lines 64-79 of the source): the single-dose (`else`) branch uses
`y0_singular`, every other branch uses `y0_general`. -/
def y0Of : Tipo → ℚ × ℚ
  | Tipo.periodico => y0_general
  | Tipo.continuo => y0_general
  | Tipo.lineal => y0_general
  | Tipo.dosisUnica => y0_singular

/-- Componentwise addition on the two-dimensional state. -/
def vadd (p q : ℚ × ℚ) : ℚ × ℚ := (p.1 + q.1, p.2 + q.2)

/-- Scalar multiplication on the two-dimensional state. -/
def smul (c : ℚ) (p : ℚ × ℚ) : ℚ × ℚ := (c * p.1, c * p.2)

/-- Modelled from the spec: one solver step of the external general-purpose
ODE integrator (scipy.integrate.odeint is not part of this repository).
The spec requires a solver that evaluates `u(t)` at internal times between
grid points; a classical Runge-Kutta step does (it samples the midpoint). -/
def rk4Step (f : ℚ × ℚ → ℚ → ℚ × ℚ) (y : ℚ × ℚ) (t0 t1 : ℚ) : ℚ × ℚ :=
  let h := t1 - t0
  let k1 := f y t0
  let k2 := f (vadd y (smul (h/2) k1)) (t0 + h/2)
  let k3 := f (vadd y (smul (h/2) k2)) (t0 + h/2)
  let k4 := f (vadd y (smul h k3)) t1
  vadd y (smul (h/6) (vadd k1 (vadd (smul 2 k2) (vadd (smul 2 k3) k4))))

/-- Modelled from the spec: the tail of the integrator's trajectory, one
state per remaining grid point. -/
def odeintGo (f : ℚ × ℚ → ℚ → ℚ × ℚ) : ℚ × ℚ → ℚ → List ℚ → List (ℚ × ℚ)
  | _, _, [] => []
  | y, t0, t1 :: ts =>
    let y1 := rk4Step f y t0 t1
    y1 :: odeintGo f y1 t1 ts

/-- Modelled from the spec: `scipy.integrate.odeint(modelo, y0, t, args)` is
external library code. Per the spec's integrator contract it returns one
`(C, T)` pair per grid point, the first row being exactly the initial state,
deterministically, with no partial output. -/
def odeint (f : ℚ × ℚ → ℚ → ℚ × ℚ) (y0 : ℚ × ℚ) : List ℚ → List (ℚ × ℚ)
  | [] => []
  | t0 :: ts => y0 :: odeintGo f y0 t0 ts

/-- All user inputs of one page run: the substance selectbox, the three
parameter sliders, the time slider, the consumption-type radio with its
pattern sliders, and the two comparison selectboxes (the comparison lists
offer only the three named substances, line 106-108 of the source). -/
structure Inputs where
  sustancia : Sustancia
  ke : ℚ
  alpha : ℚ
  beta : ℚ
  tmax : ℚ
  tipo : Tipo
  dosis : ℚ
  intervalo : ℚ
  rConst : ℚ
  aLin : ℚ
  sust1 : Sustancia
  sust2 : Sustancia
deriving DecidableEq

/-- The consumption function `u_func` selected by the `if/elif/else` chain
(lines 64-79 of the source). -/
def uOf (i : Inputs) : ℚ → ℚ :=
  match i.tipo with
  | Tipo.periodico => fun t => u_periodica t i.dosis i.intervalo
  | Tipo.continuo => fun t => u_constante t i.rConst
  | Tipo.lineal => fun t => u_lineal t i.aLin
  | Tipo.dosisUnica => u_singular

/-- The main simulation `sol = odeint(modelo, y0, t, args=(ke, alpha, beta,
u_func))` (line 82 of the source). -/
def fullSimulate (i : Inputs) : List (ℚ × ℚ) :=
  odeint (fun y t => modelo y t i.ke i.alpha i.beta (uOf i)) (y0Of i.tipo)
    (tGrid i.tmax)

/-- `u_comparacion = lambda t: u_constante(t, 1.0)` (line 115 of the source). -/
def u_comparacion : ℚ → ℚ := fun t => u_constante t 1

/-- `y0_comp = [0, 0]` (line 116 of the source). -/
def y0_comp : ℚ × ℚ := (0, 0)

/-- The two comparison runs `sol1`, `sol2` (lines 111-120 of the source):
each integrates `modelo` with the preset parameters of the selected
substance, the fixed input `u_comparacion` and initial state `y0_comp`. -/
def comparisonSols (i : Inputs) : List (ℚ × ℚ) × List (ℚ × ℚ) :=
  let p1 := parametros i.sust1
  let p2 := parametros i.sust2
  let sol1 := odeint (fun y t => modelo y t p1.ke p1.alpha p1.beta
    u_comparacion) y0_comp (tGrid i.tmax)
  let sol2 := odeint (fun y t => modelo y t p2.ke p2.alpha p2.beta
    u_comparacion) y0_comp (tGrid i.tmax)
  (sol1, sol2)

end App

namespace App

/-- C1: for every state `(C, T)`, time `t`, rate constants and consumption
function `u`, the ODE right-hand side `modelo` returns exactly
`(-ke * C + u t, alpha * u t - beta * T)`. -/
theorem modelo_rhs (C T t ke alpha beta : ℚ) (u : ℚ → ℚ) :
    modelo (C, T) t ke alpha beta u = (-ke * C + u t, alpha * u t - beta * T) :=
  rfl

theorem odeintGo_length (f : ℚ × ℚ → ℚ → ℚ × ℚ) (ts : List ℚ) :
    ∀ (y : ℚ × ℚ) (t0 : ℚ), (odeintGo f y t0 ts).length = ts.length := by
  induction ts with
  | nil => intro y t0; rfl
  | cons t1 ts ih =>
    intro y t0
    simp only [odeintGo, List.length_cons, ih]

theorem odeint_length (f : ℚ × ℚ → ℚ → ℚ × ℚ) (y0 : ℚ × ℚ) (ts : List ℚ) :
    (odeint f y0 ts).length = ts.length := by
  cases ts with
  | nil => rfl
  | cons t0 ts => simp only [odeint, List.length_cons, odeintGo_length]

theorem odeint_head (f : ℚ × ℚ → ℚ → ℚ × ℚ) (y0 : ℚ × ℚ) (ts : List ℚ)
    (h : ts ≠ []) : (odeint f y0 ts).head? = some y0 := by
  cases ts with
  | nil => exact absurd rfl h
  | cons t0 ts => rfl

theorem tGrid_length (tmax : ℚ) : (tGrid tmax).length = 500 := by
  rw [tGrid, linspace, List.length_map, List.length_range]

theorem tGrid_ne_nil (tmax : ℚ) : tGrid tmax ≠ [] := by
  intro h
  have := tGrid_length tmax
  rw [h] at this
  simp at this

theorem tGrid_getElem? (tmax : ℚ) (k : ℕ) (hk : k < 500) :
    (tGrid tmax)[k]? = some (tmax * k / 499) := by
  rw [tGrid, linspace, List.getElem?_map, List.getElem?_range hk]
  simp only [Option.map_some']
  norm_num

/-- C5: the initial state is determined by the consumption pattern: the
single-dose pattern starts from `(10, 2)` and every other pattern starts
from `(0, 0)`. -/
theorem y0Of_cases :
    y0Of Tipo.dosisUnica = (10, 2) ∧
    ∀ tp : Tipo, y0Of tp = if tp = Tipo.dosisUnica then (10, 2) else (0, 0) := by
  refine ⟨rfl, ?_⟩
  intro tp
  cases tp <;> rfl

/-- Evaluation lemma for `u_periodica` in the slider range (`T ≥ 1`,
`0 ≤ t ≤ 1000`): exactly one candidate multiple (the one at `T * ⌊t / T⌋`)
can pass the `np.isclose` test, so the sum collapses to a single one-sided
window test. -/
theorem u_periodica_eval (t D T : ℚ) (hT : 1 ≤ T) (ht0 : 0 ≤ t)
    (ht1 : t ≤ 1000) :
    u_periodica t D T =
      if t - T * (⌊t / T⌋ : ℚ) ≤ 1 / 10 + 1 / 100000 * (T * (⌊t / T⌋ : ℚ))
      then D else 0 := by
  have hTpos : (0 : ℚ) < T := by linarith
  have hfl0 : 0 ≤ ⌊t / T⌋ := Int.floor_nonneg.mpr (div_nonneg ht0 hTpos.le)
  obtain ⟨m, hm⟩ : ∃ m : ℕ, (m : ℤ) = ⌊t / T⌋ :=
    ⟨⌊t / T⌋.toNat, Int.toNat_of_nonneg hfl0⟩
  have hmc : ((⌊t / T⌋ : ℤ) : ℚ) = (m : ℚ) := by
    rw [← hm]
    push_cast
    rfl
  have hlow : (m : ℚ) * T ≤ t := by
    have h1 := Int.floor_le (t / T)
    rw [← hm] at h1
    have h2 : (m : ℚ) ≤ t / T := by exact_mod_cast h1
    calc (m : ℚ) * T ≤ (t / T) * T := by nlinarith
    _ = t := div_mul_cancel₀ t hTpos.ne'
  have hhigh : t < ((m : ℚ) + 1) * T := by
    have h1 := Int.lt_floor_add_one (t / T)
    rw [← hm] at h1
    have h2 : t / T < (m : ℚ) + 1 := by exact_mod_cast h1
    calc t = (t / T) * T := (div_mul_cancel₀ t hTpos.ne').symm
    _ < ((m : ℚ) + 1) * T := by nlinarith
  have htoNat : (⌊t / T⌋ + 1).toNat = m + 1 := by omega
  unfold u_periodica
  rw [htoNat, List.range_succ, List.countP_append]
  have hzero : (List.range m).countP
      (fun n : ℕ => npIsclose t ((n : ℚ) * T) (1/10) (1/100000)) = 0 := by
    refine List.countP_eq_zero.mpr ?_
    intro n hn
    rw [List.mem_range] at hn
    simp only [npIsclose, decide_eq_true_eq, not_le]
    have hn1 : (n : ℚ) ≤ (m : ℚ) - 1 := by
      have : (n : ℚ) + 1 ≤ (m : ℚ) := by exact_mod_cast hn
      linarith
    have hnT0 : 0 ≤ (n : ℚ) * T := mul_nonneg (Nat.cast_nonneg n) hTpos.le
    have h1 : (n : ℚ) * T ≤ (m : ℚ) * T - T := by nlinarith
    have h2 : (n : ℚ) * T ≤ t - T := by linarith
    have h3 : 1 ≤ t - (n : ℚ) * T := by linarith
    rw [abs_of_nonneg hnT0, abs_of_nonneg (by linarith : (0:ℚ) ≤ t - n * T)]
    nlinarith
  rw [hzero, hmc]
  simp only [List.countP_cons, List.countP_nil, npIsclose, Nat.zero_add,
    zero_add]
  have habs1 : |t - (m : ℚ) * T| = t - (m : ℚ) * T :=
    abs_of_nonneg (by linarith)
  have habs2 : |(m : ℚ) * T| = (m : ℚ) * T :=
    abs_of_nonneg (mul_nonneg (Nat.cast_nonneg m) hTpos.le)
  by_cases hcond : t - T * (m : ℚ) ≤ 1 / 10 + 1 / 100000 * (T * (m : ℚ))
  · rw [if_pos hcond]
    have hdec : decide (|t - (m : ℚ) * T| ≤ 1/10 + 1/100000 * |(m : ℚ) * T|)
        = true := by
      rw [decide_eq_true_eq, habs1, habs2]
      have : (m : ℚ) * T = T * (m : ℚ) := mul_comm _ _
      linarith [hcond]
    rw [hdec]
    norm_num
  · rw [if_neg hcond]
    have hdec : decide (|t - (m : ℚ) * T| ≤ 1/10 + 1/100000 * |(m : ℚ) * T|)
        = false := by
      rw [decide_eq_false_iff_not, habs1, habs2]
      intro hcon
      have : (m : ℚ) * T = T * (m : ℚ) := mul_comm _ _
      exact hcond (by linarith)
    rw [hdec]
    norm_num

/-- C2 (amended): for `T ≥ 1` and `0 ≤ t ≤ 1000`, `u_periodica` returns `D`
whenever `t` lies at or above some integer multiple `n * T` by at most
`0.1 + 1e-5 * (n * T)` (the `np.isclose` test with numpy's default
relative tolerance), and returns `0` otherwise; the window is one-sided,
so a time within `0.1` strictly below a multiple gives `0`. -/
theorem u_periodica_one_sided (t D T : ℚ) (hT : 1 ≤ T) (ht0 : 0 ≤ t)
    (ht1 : t ≤ 1000) :
    ((∃ n : ℕ, (n : ℚ) * T ≤ t ∧
        t - (n : ℚ) * T ≤ 1 / 10 + 1 / 100000 * ((n : ℚ) * T)) →
      u_periodica t D T = D) ∧
    ((¬ ∃ n : ℕ, (n : ℚ) * T ≤ t ∧
        t - (n : ℚ) * T ≤ 1 / 10 + 1 / 100000 * ((n : ℚ) * T)) →
      u_periodica t D T = 0) := by
  have hTpos : (0 : ℚ) < T := by linarith
  have hfl0 : 0 ≤ ⌊t / T⌋ := Int.floor_nonneg.mpr (div_nonneg ht0 hTpos.le)
  rw [u_periodica_eval t D T hT ht0 ht1]
  constructor
  · rintro ⟨n, hn1, hn2⟩
    have hle : (n : ℤ) ≤ ⌊t / T⌋ := by
      refine Int.le_floor.mpr ?_
      push_cast
      exact (le_div_iff₀ hTpos).mpr hn1
    by_cases heq : (n : ℤ) = ⌊t / T⌋
    · have hc : ((⌊t / T⌋ : ℤ) : ℚ) = (n : ℚ) := by
        rw [← heq]
        push_cast
        rfl
      rw [hc, if_pos]
      have : (n : ℚ) * T = T * (n : ℚ) := mul_comm _ _
      linarith
    · exfalso
      have hlt : (n : ℤ) < ⌊t / T⌋ := lt_of_le_of_ne hle heq
      have hstep : ((n : ℚ) + 1) ≤ ((⌊t / T⌋ : ℤ) : ℚ) := by
        have : (n : ℤ) + 1 ≤ ⌊t / T⌋ := hlt
        exact_mod_cast this
      have hfloorle : ((⌊t / T⌋ : ℤ) : ℚ) * T ≤ t := by
        have h1 := Int.floor_le (t / T)
        calc ((⌊t / T⌋ : ℤ) : ℚ) * T ≤ (t / T) * T := by nlinarith
        _ = t := div_mul_cancel₀ t hTpos.ne'
      have hgap : (n : ℚ) * T + T ≤ t := by nlinarith
      have hn0 : 0 ≤ (n : ℚ) * T := mul_nonneg (Nat.cast_nonneg n) hTpos.le
      nlinarith
  · intro hnex
    rw [if_neg]
    intro hcond
    apply hnex
    obtain ⟨m, hm⟩ : ∃ m : ℕ, (m : ℤ) = ⌊t / T⌋ :=
      ⟨⌊t / T⌋.toNat, Int.toNat_of_nonneg hfl0⟩
    have hmc : ((⌊t / T⌋ : ℤ) : ℚ) = (m : ℚ) := by
      rw [← hm]
      push_cast
      rfl
    refine ⟨m, ?_, ?_⟩
    · have h1 := Int.floor_le (t / T)
      rw [← hm] at h1
      have h2 : (m : ℚ) ≤ t / T := by exact_mod_cast h1
      calc (m : ℚ) * T ≤ (t / T) * T := by nlinarith
      _ = t := div_mul_cancel₀ t hTpos.ne'
    · rw [hmc] at hcond
      have : (m : ℚ) * T = T * (m : ℚ) := mul_comm _ _
      linarith

/-- C9 (amended): for `T ≥ 1`, `0 ≤ t ≤ 1000` and every `D`, `u_periodica`
takes only the values `0` and `D`; it equals `D * [t - T * ⌊t / T⌋ ≤ 0.1 +
1e-5 * (T * ⌊t / T⌋)]` (numpy's default relative tolerance widens the
window slightly beyond `0.1`); every `t ≤ 0.1` yields `D` (a dose is
registered at `t = 0`), and a time within `0.1` strictly below a multiple
of `T` yields `0`. -/
theorem u_periodica_char (t D T : ℚ) (hT : 1 ≤ T) (ht0 : 0 ≤ t)
    (ht1 : t ≤ 1000) :
    (u_periodica t D T = 0 ∨ u_periodica t D T = D) ∧
    u_periodica t D T =
      (if t - T * (⌊t / T⌋ : ℚ) ≤ 1 / 10 + 1 / 100000 * (T * (⌊t / T⌋ : ℚ))
       then D else 0) ∧
    (t ≤ 1 / 10 → u_periodica t D T = D) ∧
    (∀ k : ℕ, 1 ≤ k → (k : ℚ) * T - 1 / 10 ≤ t → t < (k : ℚ) * T →
      u_periodica t D T = 0) := by
  have hTpos : (0 : ℚ) < T := by linarith
  have hmain := u_periodica_eval t D T hT ht0 ht1
  refine ⟨?_, hmain, ?_, ?_⟩
  · rw [hmain]
    by_cases hcond : t - T * (⌊t / T⌋ : ℚ) ≤
        1 / 10 + 1 / 100000 * (T * (⌊t / T⌋ : ℚ))
    · right
      rw [if_pos hcond]
    · left
      rw [if_neg hcond]
  · intro hsmall
    have hfl : ⌊t / T⌋ = 0 := by
      rw [Int.floor_eq_zero_iff]
      constructor
      · exact div_nonneg ht0 hTpos.le
      · rw [div_lt_one hTpos]
        linarith
    rw [hmain, hfl]
    simp only [Int.cast_zero, mul_zero, sub_zero, add_zero]
    rw [if_pos hsmall]
  · intro k hk1 hk2 hk3
    have hfl : ⌊t / T⌋ = (k : ℤ) - 1 := by
      rw [Int.floor_eq_iff]
      constructor
      · push_cast
        rw [le_div_iff₀ hTpos]
        have hT10 : (1 : ℚ) / 10 < T := by linarith
        nlinarith
      · push_cast
        rw [div_lt_iff₀ hTpos]
        nlinarith
    have hcast : ((⌊t / T⌋ : ℤ) : ℚ) = (k : ℚ) - 1 := by
      rw [hfl]
      push_cast
      rfl
    rw [hmain, hcast, if_neg]
    intro hcon
    have hb1 : T * ((k : ℚ) - 1) ≤ t := by nlinarith
    have hb2 : T - 1 / 10 ≤ t - T * ((k : ℚ) - 1) := by nlinarith
    nlinarith

/-- C2 counterexample: `t = 4.95` is within absolute tolerance `0.1` of the
multiple `1 * 5` of `T = 5`, yet `u_periodica` returns `0`, not `D = 5`:
the code only tests multiples `n * T` with `n ≤ ⌊t / T⌋`, so the window is
one-sided. -/
theorem u_periodica_below_multiple_cex :
    |(99 / 20 : ℚ) - 1 * 5| ≤ 1 / 10 ∧ u_periodica (99 / 20) 5 5 = 0 ∧
    (0 : ℚ) ≠ 5 := by
  refine ⟨by rw [abs_le]; constructor <;> norm_num, ?_, by norm_num⟩
  rw [u_periodica_eval (99/20) 5 5 (by norm_num) (by norm_num) (by norm_num)]
  have hfl : ⌊(99 / 20 : ℚ) / 5⌋ = 0 := by
    rw [Int.floor_eq_zero_iff]
    norm_num [Set.mem_Ico]
  rw [hfl]
  norm_num

/-- C9 counterexample: at `t = 100.1005`, `T = 5`, `D = 1` the code returns
`D` although `t - T * ⌊t / T⌋ = 0.1005 > 0.1`: numpy's default relative
tolerance `1e-5` admits `|t - 100| = 0.1005 ≤ 0.1 + 1e-5 * 100`. -/
theorem u_periodica_rtol_cex :
    u_periodica (200201 / 2000) 1 5 = 1 ∧
    ¬ ((200201 / 2000 : ℚ) - 5 * (⌊(200201 / 2000 : ℚ) / 5⌋ : ℚ) ≤ 1 / 10) := by
  have hfl : ⌊(200201 / 2000 : ℚ) / 5⌋ = 20 := by
    rw [Int.floor_eq_iff]
    norm_num
  constructor
  · rw [u_periodica_eval (200201/2000) 1 5 (by norm_num) (by norm_num)
      (by norm_num), hfl]
    norm_num
  · rw [hfl]
    norm_num

theorem u_periodica_one_sided_witness : u_periodica 5 5 5 = 5 :=
  (u_periodica_one_sided 5 5 5 (by norm_num) (by norm_num) (by norm_num)).1
    ⟨1, by norm_num, by norm_num⟩

theorem u_periodica_char_witness : u_periodica (1 / 20) 7 3 = 7 :=
  (u_periodica_char (1/20) 7 3 (by norm_num) (by norm_num) (by norm_num)).2.2.1
    (by norm_num)

/-- C3: for every run, the first element of the returned trajectory is
exactly the supplied initial state (the one selected for the run's
consumption type). -/
theorem fullSimulate_head (i : Inputs) :
    (fullSimulate i).head? = some (y0Of i.tipo) := by
  unfold fullSimulate
  exact odeint_head _ _ _ (tGrid_ne_nil _)

/-- C4: for every `t_max` in `[10, 100]`, the time grid is an ordered
(strictly increasing) sequence of exactly 500 uniformly spaced points
(`k`-th point `t_max * k / 499`, spacing `t_max / 499`) starting at `0` and
ending at `t_max`, and the integrator returns exactly one `(C, T)` pair per
grid point. -/
theorem tGrid_spec (tmax : ℚ) (h1 : 10 ≤ tmax) (h2 : tmax ≤ 100) :
    (tGrid tmax).length = 500 ∧
    (tGrid tmax).head? = some 0 ∧
    (tGrid tmax).getLast? = some tmax ∧
    (∀ k : ℕ, k < 500 → (tGrid tmax)[k]? = some (tmax * k / 499)) ∧
    (∀ k : ℕ, k + 1 < 500 →
      ((tGrid tmax)[k + 1]?).getD 0 - ((tGrid tmax)[k]?).getD 0 =
        tmax / 499) ∧
    List.Chain' (fun a b => a < b) (tGrid tmax) ∧
    ∀ (f : ℚ × ℚ → ℚ → ℚ × ℚ) (y0 : ℚ × ℚ),
      (odeint f y0 (tGrid tmax)).length = 500 := by
  have ht : (0 : ℚ) < tmax := by linarith
  refine ⟨tGrid_length tmax, ?_, ?_, ?_, ?_, ?_, ?_⟩
  · rw [List.head?_eq_getElem?, tGrid_getElem? tmax 0 (by norm_num)]
    norm_num
  · rw [List.getLast?_eq_getElem?, tGrid_length,
      tGrid_getElem? tmax 499 (by norm_num)]
    norm_num
  · exact fun k hk => tGrid_getElem? tmax k hk
  · intro k hk
    rw [tGrid_getElem? tmax (k + 1) hk,
      tGrid_getElem? tmax k (by omega), Option.getD_some, Option.getD_some,
      div_sub_div_same]
    push_cast
    ring_nf
  · rw [tGrid, linspace, List.chain'_map,
      show (500 : ℕ) = Nat.succ 499 from rfl]
    refine (List.chain'_range_succ _ _).mpr ?_
    intro m hm
    simp only [zero_add, sub_zero]
    have hden : (0 : ℚ) < ((Nat.succ 499 : ℕ) : ℚ) - 1 := by norm_num
    refine (div_lt_div_iff_of_pos_right hden).mpr ?_
    have hc : (m : ℚ) < (Nat.succ m : ℚ) := by push_cast; linarith
    exact mul_lt_mul_of_pos_left hc ht
  · intro f y0
    rw [odeint_length, tGrid_length]

theorem tGrid_spec_witness :
    (10 : ℚ) ≤ 50 ∧ (50 : ℚ) ≤ 100 ∧ (tGrid 50).length = 500 ∧
    (tGrid 50).head? = some 0 ∧ (tGrid 50).getLast? = some 50 :=
  ⟨by norm_num, by norm_num, (tGrid_spec 50 (by norm_num) (by norm_num)).1,
   (tGrid_spec 50 (by norm_num) (by norm_num)).2.1,
   (tGrid_spec 50 (by norm_num) (by norm_num)).2.2.1⟩

/-- C6: the simulation is deterministic: two invocations with identical
inputs produce identical trajectories (the embedded pipeline is a pure
function of the inputs). -/
theorem fullSimulate_deterministic (i j : Inputs) (h : i = j) :
    fullSimulate i = fullSimulate j := by rw [h]

theorem fullSimulate_deterministic_witness :
    fullSimulate ⟨Sustancia.simulacionGeneral, 1/2, 3/10, 1/10, 50,
      Tipo.dosisUnica, 5, 5, 1, 1/5, Sustancia.alcohol, Sustancia.nicotina⟩ =
    fullSimulate ⟨Sustancia.simulacionGeneral, 1/2, 3/10, 1/10, 50,
      Tipo.dosisUnica, 5, 5, 1, 1/5, Sustancia.alcohol,
      Sustancia.nicotina⟩ :=
  fullSimulate_deterministic _ _ rfl

/-- C7: every integration call returns the complete trajectory: exactly one
`(C, T)` pair per grid point (length 500), never a partial result. -/
theorem fullSimulate_total (i : Inputs) :
    (fullSimulate i).length = (tGrid i.tmax).length ∧
    (fullSimulate i).length = 500 := by
  constructor
  · unfold fullSimulate
    exact odeint_length _ _ _
  · unfold fullSimulate
    rw [odeint_length, tGrid_length]

/-- C10: the two comparison trajectories depend only on `t_max` and the
preset parameter table entries of the two selected substances — runs
differing only in the sliders or the consumption-type choice give identical
comparison output — and they always use the constant input `u(t) = 1` with
initial state `(0, 0)`. -/
theorem comparison_noninterference (i j : Inputs)
    (h1 : i.sust1 = j.sust1) (h2 : i.sust2 = j.sust2) (h3 : i.tmax = j.tmax) :
    comparisonSols i = comparisonSols j ∧
    (comparisonSols i).1.head? = some (0, 0) ∧
    (comparisonSols i).2.head? = some (0, 0) ∧
    comparisonSols i =
      (odeint (fun y t => modelo y t (parametros i.sust1).ke
        (parametros i.sust1).alpha (parametros i.sust1).beta fun s => 1)
        (0, 0) (tGrid i.tmax),
       odeint (fun y t => modelo y t (parametros i.sust2).ke
        (parametros i.sust2).alpha (parametros i.sust2).beta fun s => 1)
        (0, 0) (tGrid i.tmax)) := by
  refine ⟨?_, ?_, ?_, rfl⟩
  · unfold comparisonSols
    rw [h1, h2, h3]
  · exact odeint_head _ _ _ (tGrid_ne_nil _)
  · exact odeint_head _ _ _ (tGrid_ne_nil _)

theorem comparison_noninterference_witness :
    comparisonSols ⟨Sustancia.simulacionGeneral, 1/2, 3/10, 1/10, 50,
      Tipo.dosisUnica, 5, 5, 1, 1/5, Sustancia.alcohol, Sustancia.nicotina⟩ =
    comparisonSols ⟨Sustancia.marihuana, 1, 0, 1, 50, Tipo.periodico, 3, 2,
      2, 1/2, Sustancia.alcohol, Sustancia.nicotina⟩ :=
  (comparison_noninterference _ _ rfl rfl rfl).1

end App
